import Mathlib

/-!
Verification of the digital_calendar frontend and its sync/cache contract.

The definitions below are a shallow embedding of the TypeScript sources:
  * a civil-date model of the JavaScript Date operations used by the code
    (getFullYear / getMonth / getDate / setDate / toISOString arithmetic);
  * the calendar display logic of CalendarDisplay.tsx and the month view of
    MonthView.tsx (event selection per day, month-cell rendering);
  * the retrying API client of utils/api.ts (fetchWithRetry, handleResponse,
    api.get, api.post, deleteAccount) with the network abstracted as an
    oracle assigning an outcome to each attempt;
  * the Dashboard force-sync guard as a small transition system;
  * the status / cache-statistics snapshot types and their rendering;
  * the cache store and reconciler of the sync engine, modelled from the
    specification because those backend files are not part of the sources.
-/

namespace DigitalCalendar

/-! ## Civil date model of JavaScript dates

A JavaScript `Date` is internally a millisecond count; the code accesses it
through the civil components `getFullYear` (year), `getMonth` (zero-based
month) and `getDate` (one-based day of month), plus a time of day.  We
represent the parsed value by those components directly.  `daysFromCivil`
is the standard civil-from-triple day count (ECMA MakeDay), used to give
the millisecond value of a date and the semantics of `setDate`. -/

structure JSDate where
  year : Int
  /-- zero-based month, as returned by getMonth -/
  month : Int
  /-- one-based day of month, as returned by getDate -/
  day : Int
  /-- milliseconds within the day -/
  tod : Int
deriving DecidableEq

/-- Day number of the civil date `(y, m, d)` (month `m` one-based) counted
from the Unix epoch, following the standard civil calendar algorithm. -/
def daysFromCivil (y m d : Int) : Int :=
  let y2 := if m ≤ 2 then y - 1 else y
  let era := (if 0 ≤ y2 then y2 else y2 - 399) / 400
  let yoe := y2 - era * 400
  let mp := (m + 9) % 12
  let doy := (153 * mp + 2) / 5 + d - 1
  let doe := yoe * 365 + yoe / 4 - yoe / 100 + doy
  era * 146097 + doe - 719468

/-- Millisecond count of one day. -/
def msPerDay : Int := 86400000

/-- Epoch day number of a date value. -/
def JSDate.toDayNumber (dt : JSDate) : Int :=
  daysFromCivil dt.year (dt.month + 1) dt.day

/-- Millisecond timestamp of a date value (ECMA MakeDate). -/
def JSDate.toMs (dt : JSDate) : Int :=
  dt.toDayNumber * msPerDay + dt.tod

/-- Semantics of `d.setDate(n)`: the date is rebuilt from the current year
and month with day-of-month `n` (out-of-range values normalize across month
boundaries), keeping the time of day.  The result is returned as the new
millisecond timestamp. -/
def jsSetDateMs (dt : JSDate) (n : Int) : Int :=
  daysFromCivil dt.year (dt.month + 1) n * msPerDay + dt.tod

/-- The day-of-month argument enters `daysFromCivil` linearly. -/
theorem daysFromCivil_add (y m d k : Int) :
    daysFromCivil y m (d + k) = daysFromCivil y m d + k := by
  simp only [daysFromCivil]
  ring

/-! ## Frontend event model and per-day selection (CalendarDisplay.tsx) -/

/-- Event shape of types/calendarEvent.ts, with the two timestamp strings
already parsed into date values (the code always reads them through
`new Date(e.start_time)`). -/
structure CalendarEvent where
  id : String
  title : String
  description : String
  start_time : JSDate
  end_time : JSDate
  all_day : Bool
  location : String
  calendar_id : String
  account_id : String
  color : String
  attendees : List String
deriving DecidableEq

/-- isSameDay of CalendarDisplay.tsx: compares getFullYear, getMonth and
getDate of the two dates. -/
def isSameDay (d1 d2 : JSDate) : Bool :=
  d1.year == d2.year && d1.month == d2.month && d1.day == d2.day

/-- getEventsForDate of CalendarDisplay.tsx: keeps the events whose
start_time falls on the given calendar day.  The day, week and month views
all select their per-day events with this filter. -/
def getEventsForDate (events : List CalendarEvent) (date : JSDate) :
    List CalendarEvent :=
  events.filter (fun e => isSameDay e.start_time date)

/-- Modelled from the spec: the query contract returns all events
overlapping the window, so an event belongs to a calendar day exactly when
its [start_time, end_time] range intersects that day.  This definition
follows the words of the claim and is compared with `getEventsForDate`. -/
def eventOverlapsDay (e : CalendarEvent) (date : JSDate) : Bool :=
  decide (e.start_time.toMs < (date.toDayNumber + 1) * msPerDay) &&
  decide (date.toDayNumber * msPerDay ≤ e.end_time.toMs)

/-- Events query issued by loadEvents of CalendarDisplay.tsx; the two
bounds are the millisecond timestamps serialized by toISOString. -/
structure EventsQuery where
  start_date : Int
  end_date : Int
deriving DecidableEq

/-- loadEvents of CalendarDisplay.tsx: takes the current time, moves a copy
60 days back with setDate(getDate() - 60) and a copy 120 days forward with
setDate(getDate() + 120), and passes the two values as start_date and
end_date of the events query. -/
def loadEventsQuery (now : JSDate) : EventsQuery :=
  { start_date := jsSetDateMs now (now.day - 60)
  , end_date := jsSetDateMs now (now.day + 120) }

/-! ## Month view cell rendering (MonthView.tsx / renderMonthView) -/

/-- JavaScript Array.slice restricted to non-negative bounds. -/
def jsSlice {α : Type} (xs : List α) (s e : Nat) : List α :=
  (xs.take e).drop s

/-- What one month cell renders for its day: the event entries shown and
the optional count of the +N more indicator. -/
structure MonthCell where
  shown : List CalendarEvent
  more : Option Nat
deriving DecidableEq

/-- Month cell body of MonthView.tsx: the events of the day sliced to the
first three, and the +N more indicator exactly when more than three events
fall on the day. -/
def renderMonthCell (dayEvents : List CalendarEvent) : MonthCell :=
  { shown := jsSlice dayEvents 0 3
  , more := if 3 < dayEvents.length then some (dayEvents.length - 3) else none }

/-! ## Retrying API client (utils/api.ts, enhanced version)

The network is abstracted as an oracle `net : Nat → FetchOutcome` giving
the outcome of the i-th fetch attempt: either a response or a thrown
error, the latter carrying the JavaScript error name so that the AbortError
raised by the request timeout is distinguishable. -/

/-- Parsed JSON body of a response, as far as the client inspects it: the
message and error fields read by handleResponse (the empty string stands
for an absent or falsy field, matching JavaScript truthiness) and an opaque
remainder. -/
structure JsonBody where
  message : String
  error : String
  payload : String
deriving DecidableEq

/-- HTTP response: status code and the result of response.json(), which is
none when the body does not parse as JSON. -/
structure Response where
  status : Nat
  body : Option JsonBody
deriving DecidableEq

/-- response.ok of the fetch API: status in the range 200-299. -/
def Response.ok (r : Response) : Bool :=
  200 ≤ r.status && r.status < 300

/-- Outcome of one fetch attempt. -/
inductive FetchOutcome where
  | resp (r : Response)
  | thrown (name message : String)
deriving DecidableEq

/-- Values thrown by the client: an ApiException with status and message,
or a plain Error with a message. -/
inductive Thrown where
  | apiException (status : Nat) (message : String)
  | jsError (message : String)
deriving DecidableEq

/-- RequestConfig of types/api.ts; absent fields take the client defaults
(timeout 30000, retries 3, retryDelay 1000). -/
structure RequestConfig where
  timeout : Option Nat := none
  retries : Option Nat := none
  retryDelay : Option Nat := none
deriving DecidableEq

def DEFAULT_TIMEOUT : Nat := 30000
def DEFAULT_RETRIES : Nat := 3
def DEFAULT_RETRY_DELAY : Nat := 1000

/-- Result of a fetchWithRetry execution: the returned response or thrown
value, the number of fetch attempts performed, and the sequence of backoff
delays slept between attempts. -/
structure FetchTrace where
  result : Except Thrown Response
  attempts : Nat
  delays : List Nat

/-- Loop body of fetchWithRetry.  `left` is the number of loop iterations
still permitted (the loop guard `attempt <= retries` holds exactly while
`left > 0` since the top-level call starts with `left = retries + 1` and
`attempt = 0`); `attempt` is the current attempt index, used as the network
oracle position and the backoff exponent; `lastError` is the accumulator
variable of the source. -/
def fetchWithRetryAux (net : Nat → FetchOutcome) (retries retryDelay : Nat) :
    Nat → Nat → Option Thrown → FetchTrace
  | 0, _, lastError =>
      { result := .error (lastError.getD
          (.apiException 500 "Request failed after retries"))
      , attempts := 0, delays := [] }
  | left + 1, attempt, _ =>
      match net attempt with
      | .resp r =>
          if r.ok || (decide (400 ≤ r.status) && decide (r.status < 500)) then
            { result := .ok r, attempts := 1, delays := [] }
          else
            let rest := fetchWithRetryAux net retries retryDelay left
              (attempt + 1) (some (.jsError ("HTTP " ++ toString r.status)))
            { result := rest.result
            , attempts := rest.attempts + 1
            , delays := (if attempt < retries
                then [retryDelay * 2 ^ attempt] else []) ++ rest.delays }
      | .thrown name msg =>
          if name == "AbortError" then
            { result := .error (.apiException 408 "Request timeout")
            , attempts := 1, delays := [] }
          else
            let rest := fetchWithRetryAux net retries retryDelay left
              (attempt + 1) (some (.jsError msg))
            { result := rest.result
            , attempts := rest.attempts + 1
            , delays := (if attempt < retries
                then [retryDelay * 2 ^ attempt] else []) ++ rest.delays }

/-- fetchWithRetry of utils/api.ts: up to `retries + 1` attempts; a
response that is ok or has a 4xx status is returned at once; an AbortError
(timeout) throws ApiException 408 immediately; other thrown errors and
remaining statuses are retried after an exponential backoff delay of
`retryDelay * 2 ^ attempt`; when the loop exhausts its attempts the last
recorded error is thrown. -/
def fetchWithRetry (net : Nat → FetchOutcome) (cfg : RequestConfig) :
    FetchTrace :=
  fetchWithRetryAux net (cfg.retries.getD DEFAULT_RETRIES)
    (cfg.retryDelay.getD DEFAULT_RETRY_DELAY)
    (cfg.retries.getD DEFAULT_RETRIES + 1) 0 none

/-- handleResponse of utils/api.ts: a non-ok response throws an
ApiException carrying the status and the message or error field of the
parsed error body when present (falling back to "API error: <status>");
an ok response resolves with its parsed JSON body, or throws ApiException
500 when the body does not parse. -/
def handleResponse (r : Response) : Except Thrown JsonBody :=
  if r.ok then
    match r.body with
    | some data => .ok data
    | none => .error (.apiException 500 "Failed to parse response JSON")
  else
    let base := "API error: " ++ toString r.status
    match r.body with
    | some errorData =>
        .error (.apiException r.status
          (if errorData.message ≠ "" then errorData.message
           else if errorData.error ≠ "" then errorData.error
           else base))
    | none => .error (.apiException r.status base)

/-- Request URL built by the client for an endpoint (API_BASE defaults to
/api). -/
def requestUrl (endpoint : String) : String :=
  "/api" ++ endpoint

/-- api.get of utils/api.ts: fetchWithRetry on the built URL followed by
handleResponse.  The network oracle is keyed by URL and attempt index. -/
def apiGet (net : String → Nat → FetchOutcome) (endpoint : String)
    (cfg : RequestConfig) : Except Thrown JsonBody :=
  match (fetchWithRetry (net (requestUrl endpoint)) cfg).result with
  | .ok r => handleResponse r
  | .error e => .error e

/-- api.post of utils/api.ts: the same pipeline as api.get (the method and
body only shape the request options, which the network oracle absorbs). -/
def apiPost (net : String → Nat → FetchOutcome) (endpoint : String)
    (cfg : RequestConfig) : Except Thrown JsonBody :=
  match (fetchWithRetry (net (requestUrl endpoint)) cfg).result with
  | .ok r => handleResponse r
  | .error e => .error e

/-- Endpoint targeted by deleteAccount for a given account id. -/
def deleteAccountEndpoint (accountId : String) : String :=
  "/accounts/" ++ accountId ++ "/remove"

/-- deleteAccount of utils/api.ts: posts to /accounts/<id>/remove inside a
try/catch, resolving true when the post resolves and false when it throws;
it never rethrows. -/
def deleteAccount (accountId : String) (net : String → Nat → FetchOutcome) :
    Bool :=
  match apiPost net (deleteAccountEndpoint accountId) {} with
  | .ok _ => true
  | .error _ => false

/-! ## Dashboard force-sync guard (Dashboard.tsx)

The force-sync button has onClick handleForceSync and
`disabled = syncing || syncStatus?.currently_syncing`; handleForceSync
sets syncing, posts /sync, and clears syncing when the request settles;
loadDashboardData refreshes currently_syncing from the status snapshot.
The transition system below records those three interactions, counting the
sync requests issued in a ghost field. -/

structure DashboardState where
  syncing : Bool
  currentlySyncing : Bool
  runsStarted : Nat
deriving DecidableEq

inductive DashEvent where
  /-- the user presses the Force Sync Now button -/
  | clickForceSync
  /-- the POST /sync request settles (the finally block runs) -/
  | syncRequestDone
  /-- loadDashboardData stores a fresh status snapshot -/
  | statusUpdate (b : Bool)
deriving DecidableEq

/-- Disabled attribute of the Force Sync Now button. -/
def forceSyncDisabled (s : DashboardState) : Bool :=
  s.syncing || s.currentlySyncing

/-- One step of the dashboard: a click on a disabled button does nothing;
an enabled click starts exactly one sync request and sets syncing. -/
def dashStep (s : DashboardState) : DashEvent → DashboardState
  | .clickForceSync =>
      if forceSyncDisabled s then s
      else { s with syncing := true, runsStarted := s.runsStarted + 1 }
  | .syncRequestDone => { s with syncing := false }
  | .statusUpdate b => { s with currentlySyncing := b }

/-- A sequence of dashboard events. -/
def dashRun (s : DashboardState) (events : List DashEvent) : DashboardState :=
  events.foldl dashStep s

/-! ## Status and cache-statistics snapshot (types/syncStatus.ts,
types/cacheStats.ts) and its rendering by Dashboard.tsx -/

/-- SyncStatus of types/syncStatus.ts.  The error entries are kept opaque
(the interface types them as any). -/
structure SyncStatus where
  currently_syncing : Bool
  last_full_sync : Option String
  total_events : Nat
  total_calendars : Nat
  errors : List String
  sources : List (String × String)
deriving DecidableEq

/-- Date range of CacheStats; either bound may be null. -/
structure DateRange where
  earliest : Option String
  latest : Option String
deriving DecidableEq

/-- CacheStats of types/cacheStats.ts. -/
structure CacheStats where
  total_events : Nat
  total_calendars : Nat
  events_by_account : List (String × Nat)
  calendars_by_account : List (String × Nat)
  date_range : DateRange
deriving DecidableEq

/-- JavaScript truthiness of a nullable string: null and the empty string
are falsy. -/
def jsTruthyStr : Option String → Bool
  | some s => s ≠ ""
  | none => false

/-- What the Dashboard status and cache cards render from a snapshot. -/
structure DashboardView where
  statusLabel : String
  lastSyncText : String
  eventsCount : Nat
  calendarsCount : Nat
  errorsShown : Option Nat
  cachedEvents : Nat
  cachedCalendars : Nat
  dateRangeText : Option (String × String)
deriving DecidableEq

/-- Rendering logic of Dashboard.tsx over a loaded snapshot: the syncing
label, the Last Sync line (the toLocaleString formatter is abstracted as
`fmt`, with Never shown for a falsy timestamp), the event and calendar
counts, the Recent Errors banner shown only for a nonempty error list, and
the cache date range shown only when both bounds are truthy. -/
def dashboardView (fmt : String → String) (st : SyncStatus)
    (cs : CacheStats) : DashboardView :=
  { statusLabel :=
      if st.currently_syncing then "Currently syncing..." else "Ready"
  , lastSyncText :=
      match st.last_full_sync with
      | some t => if t ≠ "" then fmt t else "Never"
      | none => "Never"
  , eventsCount := st.total_events
  , calendarsCount := st.total_calendars
  , errorsShown :=
      if 0 < st.errors.length then some st.errors.length else none
  , cachedEvents := cs.total_events
  , cachedCalendars := cs.total_calendars
  , dateRangeText :=
      match cs.date_range.earliest, cs.date_range.latest with
      | some a, some b =>
          if a ≠ "" && b ≠ "" then some (fmt a, fmt b) else none
      | _, _ => none }

/-! ## Cache store (sync engine, modelled from the specification)

The cache store of the sync engine is backend code that is not among the
sources; the definitions in this section are modelled from the
specification: replaceAccountWindow atomically deletes everything stored
for the account within the window and inserts the new set, and queryEvents
returns all events overlapping the window across all accounts, ordered by
start time and filterable by account. -/

/-- Modelled from the spec: one event row of the cache store schema
events(account_id, calendar_id, event_id, title, start, end, ...). -/
structure EventRow where
  account_id : String
  calendar_id : String
  event_id : String
  title : String
  startTime : Int
  endTime : Int
  all_day : Bool
deriving DecidableEq

/-- Modelled from the spec: one calendar row of the cache store schema
calendars(account_id, calendar_id, name, color). -/
structure CalendarRow where
  account_id : String
  calendar_id : String
  name : String
  color : String
deriving DecidableEq

/-- Sync window: the [earliest, latest] timestamp range a sync covers. -/
structure Window where
  lo : Int
  hi : Int
deriving DecidableEq

/-- An event range [s, e] overlaps a window. -/
def inWindow (w : Window) (s e : Int) : Bool :=
  decide (s ≤ w.hi) && decide (w.lo ≤ e)

/-- Cache store state: the stored calendar and event rows. -/
structure Cache where
  calendars : List CalendarRow
  events : List EventRow
deriving DecidableEq

/-- Modelled from the spec: replaceAccountWindow(accountId, calendars,
events, window) atomically deletes all calendars and events previously
stored for this account within the window and inserts the new set
(replace-by-window: rows of the account outside the window survive, rows
of other accounts are untouched). -/
def replaceAccountWindow (c : Cache) (accountId : String)
    (cals : List CalendarRow) (evs : List EventRow) (w : Window) : Cache :=
  { calendars :=
      c.calendars.filter (fun r => r.account_id ≠ accountId) ++ cals
  , events :=
      c.events.filter (fun r =>
        !(r.account_id == accountId && inWindow w r.startTime r.endTime))
        ++ evs }

/-- Modelled from the spec: queryEvents(window, filter?) returns all
events overlapping the window across all accounts, ordered by start time,
filterable by account. -/
def queryEvents (c : Cache) (w : Window) (accountFilter : Option String) :
    List EventRow :=
  ((c.events.filter (fun r => inWindow w r.startTime r.endTime)).filter
      (fun r => match accountFilter with
        | some a => r.account_id == a
        | none => true)).insertionSort
    (fun a b => a.startTime ≤ b.startTime)

/-! ## Merge/Reconciler (sync engine, modelled from the specification) -/

/-- Modelled from the spec: one raw event entry fetched by an adapter
call, before reconciliation; the fields beyond the dedup key are carried
opaquely. -/
structure RawEvent where
  calendar_id : String
  event_id : String
  title : String
  payload : String
deriving DecidableEq

/-- Dedup key of the reconciler: (calendar id, event id). -/
def dedupKey (e : RawEvent) : String × String :=
  (e.calendar_id, e.event_id)

/-- Modelled from the spec: the reconciler deduplicates the raw per-fetch
event list by (calendar id, event id) with last-wins semantics — a later
entry with the same key replaces the earlier one. -/
def reconcile (fetched : List RawEvent) : List RawEvent :=
  fetched.foldl
    (fun acc e => acc.filter (fun x => dedupKey x ≠ dedupKey e) ++ [e]) []

/-! ## Claims -/

/-- An event spanning the night of 2024-01-01 into 2024-01-02 (23:00 to
01:00), used to compare day selection with the overlap contract. -/
def overnightEvent : CalendarEvent :=
  { id := "e1", title := "Overnight", description := ""
  , start_time := ⟨2024, 0, 1, 82800000⟩
  , end_time := ⟨2024, 0, 2, 3600000⟩
  , all_day := false, location := "", calendar_id := "c1"
  , account_id := "a1", color := "", attendees := [] }

/-- The calendar day 2024-01-02. -/
def overlappedDay : JSDate := ⟨2024, 0, 2, 0⟩

/-- C1 counterexample: the overnight event overlaps the calendar day
2024-01-02 (its range covers that day until 01:00), yet getEventsForDate
selects nothing for that day, because the views filter by the start day
only. -/
theorem getEventsForDate_misses_overlapping_event :
    eventOverlapsDay overnightEvent overlappedDay = true ∧
    getEventsForDate [overnightEvent] overlappedDay = [] := by
  constructor
  · decide
  · decide

/-- C1 (amended): for every fetched event list and every day shown in the
day, week, or month view, the set of events selected for that day is
exactly the set of events whose start_time falls on that calendar day; an
event whose [start_time, end_time] range merely overlaps the day without
starting on it is not selected. -/
theorem getEventsForDate_mem (events : List CalendarEvent) (date : JSDate)
    (e : CalendarEvent) :
    e ∈ getEventsForDate events date ↔
      e ∈ events ∧ isSameDay e.start_time date = true := by
  simp [getEventsForDate]

/-- C4: every call to loadEvents requests exactly the sync window from 60
days in the past to 120 days in the future of the current time, passing
the two bounds as start_date and end_date of the events query. -/
theorem loadEvents_window (now : JSDate) :
    (loadEventsQuery now).start_date = now.toMs - 60 * msPerDay ∧
    (loadEventsQuery now).end_date = now.toMs + 120 * msPerDay := by
  have h1 : daysFromCivil now.year (now.month + 1) (now.day - 60)
      = daysFromCivil now.year (now.month + 1) now.day - 60 := by
    rw [sub_eq_add_neg, daysFromCivil_add, sub_eq_add_neg]
  have h2 : daysFromCivil now.year (now.month + 1) (now.day + 120)
      = daysFromCivil now.year (now.month + 1) now.day + 120 :=
    daysFromCivil_add _ _ _ _
  refine ⟨?_, ?_⟩ <;>
    simp only [loadEventsQuery, jsSetDateMs, JSDate.toMs,
      JSDate.toDayNumber, h1, h2] <;>
    ring

/-- C9: every month-view day cell renders at most 3 event entries (the
first three events of the day, in order), and shows the +N more indicator
exactly when the day has more than 3 events, with N equal to the number of
events minus 3. -/
theorem renderMonthCell_caps_at_three (dayEvents : List CalendarEvent) :
    (renderMonthCell dayEvents).shown = dayEvents.take 3 ∧
    (renderMonthCell dayEvents).shown.length ≤ 3 ∧
    (∀ n, (renderMonthCell dayEvents).more = some n ↔
      3 < dayEvents.length ∧ n = dayEvents.length - 3) := by
  refine ⟨?_, ?_, ?_⟩
  · simp [renderMonthCell, jsSlice]
  · simp only [renderMonthCell, jsSlice, List.drop_zero, List.length_take]
    omega
  · intro n
    by_cases h : 3 < dayEvents.length <;>
      simp [renderMonthCell, h, eq_comm]

/-- C3: while a sync run is in flight (the force-sync request is pending
or the status snapshot reports currently syncing) the force-sync button is
disabled, so a trigger in that state is a no-op; a burst of overlapping
triggers from an idle dashboard starts exactly one sync run. -/
theorem forceSync_singleFlight (s t : DashboardState) (n : Nat)
    (hidle : forceSyncDisabled s = false)
    (hbusy : forceSyncDisabled t = true) :
    dashStep t .clickForceSync = t ∧
    (dashRun s (List.replicate (n + 1) .clickForceSync)).runsStarted
      = s.runsStarted + 1 := by
  have hstep : dashStep t .clickForceSync = t := by
    simp [dashStep, hbusy]
  refine ⟨hstep, ?_⟩
  have hbusyRun : ∀ (m : Nat) (u : DashboardState), u.syncing = true →
      dashRun u (List.replicate m .clickForceSync) = u := by
    intro m
    induction m with
    | zero => intro u _; rfl
    | succ k ih =>
      intro u hu
      have hdis : forceSyncDisabled u = true := by
        simp [forceSyncDisabled, hu]
      have : dashStep u .clickForceSync = u := by
        simp [dashStep, hdis]
      simp only [List.replicate_succ, dashRun, List.foldl_cons, this]
      exact ih u hu
  have hfirst : dashStep s .clickForceSync =
      { s with syncing := true, runsStarted := s.runsStarted + 1 } := by
    simp [dashStep, hidle]
  simp only [List.replicate_succ, dashRun, List.foldl_cons, hfirst]
  have := hbusyRun n
      { s with syncing := true, runsStarted := s.runsStarted + 1 } rfl
  simpa [dashRun] using congrArg DashboardState.runsStarted this

/-- C3 witness: a concrete idle dashboard and a concrete busy dashboard
instantiating the single-flight theorem with two overlapping triggers. -/
theorem forceSync_singleFlight_witness :
    forceSyncDisabled ⟨false, false, 0⟩ = false ∧
    forceSyncDisabled ⟨true, false, 0⟩ = true ∧
    (dashStep ⟨true, false, 0⟩ .clickForceSync = ⟨true, false, 0⟩ ∧
      (dashRun ⟨false, false, 0⟩
        (List.replicate 2 .clickForceSync)).runsStarted = 0 + 1) :=
  ⟨by decide, by decide,
    forceSync_singleFlight ⟨false, false, 0⟩ ⟨true, false, 0⟩ 1
      (by decide) (by decide)⟩

/-- The retry loop performs at most `left` fetch attempts. -/
theorem fetchWithRetryAux_attempts_le (net : Nat → FetchOutcome)
    (R D : Nat) :
    ∀ left attempt le,
      (fetchWithRetryAux net R D left attempt le).attempts ≤ left := by
  intro left
  induction left with
  | zero => intro attempt le; simp [fetchWithRetryAux]
  | succ k ih =>
    intro attempt le
    simp only [fetchWithRetryAux]
    cases hnet : net attempt with
    | resp r =>
      by_cases hr :
          (r.ok || (decide (400 ≤ r.status) && decide (r.status < 500)))
            = true
      · simp [hr]
      · have := ih (attempt + 1)
          (some (.jsError ("HTTP " ++ toString r.status)))
        simp only [hr, if_false, Bool.false_eq_true]
        simpa using Nat.succ_le_succ this
    | thrown name msg =>
      by_cases hr : (name == "AbortError") = true
      · simp [hr]
      · have := ih (attempt + 1) (some (.jsError msg))
        simp only [hr, if_false, Bool.false_eq_true]
        simpa using Nat.succ_le_succ this

/-- The backoff delays recorded by the retry loop form the geometric
sequence retryDelay * 2 ^ attempt, retryDelay * 2 ^ (attempt + 1), ... -/
theorem fetchWithRetryAux_delays_geometric (net : Nat → FetchOutcome)
    (R D : Nat) :
    ∀ left attempt le, attempt + left ≤ R + 1 →
      ∃ k, (fetchWithRetryAux net R D left attempt le).delays
        = (List.range k).map (fun j => D * 2 ^ (attempt + j)) := by
  intro left
  induction left with
  | zero =>
    intro attempt le _
    exact ⟨0, by simp [fetchWithRetryAux]⟩
  | succ k ih =>
    intro attempt le h
    simp only [fetchWithRetryAux]
    have hstep : ∀ le2 : Option Thrown,
        ∃ n, ((if attempt < R then [D * 2 ^ attempt] else []) ++
            (fetchWithRetryAux net R D k (attempt + 1) le2).delays)
          = (List.range n).map (fun j => D * 2 ^ (attempt + j)) := by
      intro le2
      obtain ⟨m, hm⟩ := ih (attempt + 1) le2 (by omega)
      by_cases ha : attempt < R
      · refine ⟨m + 1, ?_⟩
        rw [if_pos ha, hm, List.range_succ_eq_map, List.map_cons,
          List.map_map]
        have hf : (fun j => D * 2 ^ (attempt + j)) ∘ Nat.succ
            = fun j => D * 2 ^ (attempt + 1 + j) := by
          funext j
          have : attempt + Nat.succ j = attempt + 1 + j := by omega
          simp [Function.comp, this]
        simp [hf]
      · have hk0 : k = 0 := by omega
        subst hk0
        refine ⟨0, ?_⟩
        rw [if_neg ha]
        simp [fetchWithRetryAux]
    cases hnet : net attempt with
    | resp r =>
      by_cases hr :
          (r.ok || (decide (400 ≤ r.status) && decide (r.status < 500)))
            = true
      · exact ⟨0, by simp [hr]⟩
      · simpa only [hr, if_false, Bool.false_eq_true] using
          hstep (some (.jsError ("HTTP " ++ toString r.status)))
    | thrown name msg =>
      by_cases hr : (name == "AbortError") = true
      · exact ⟨0, by simp [hr]⟩
      · simpa only [hr, if_false, Bool.false_eq_true] using
          hstep (some (.jsError msg))

/-- C2 (amended): for every request issued through the retrying client,
a successful response or any 4xx response is returned immediately without
retry; a timeout aborts immediately with ApiException 408 and is not
retried; a retry happens only after a non-abort thrown error or a non-ok
response outside the 4xx range (in practice a 5xx server error); the
backoff delay doubles between consecutive attempts; and the total number
of attempts is capped at retries + 1, which is 4 with the default
configuration of 3 retries. -/
theorem fetchWithRetry_policy (net : Nat → FetchOutcome)
    (cfg : RequestConfig) :
    ((fetchWithRetry net cfg).attempts
        ≤ cfg.retries.getD DEFAULT_RETRIES + 1) ∧
    (∀ r, net 0 = .resp r →
      (r.ok || (decide (400 ≤ r.status) && decide (r.status < 500)))
        = true →
      fetchWithRetry net cfg
        = { result := .ok r, attempts := 1, delays := [] }) ∧
    (∀ msg, net 0 = .thrown "AbortError" msg →
      fetchWithRetry net cfg
        = { result := .error (.apiException 408 "Request timeout")
          , attempts := 1, delays := [] }) ∧
    (1 < (fetchWithRetry net cfg).attempts →
      (∃ r, net 0 = .resp r ∧ r.ok = false ∧
        (r.status < 400 ∨ 500 ≤ r.status)) ∨
      (∃ name msg, net 0 = .thrown name msg ∧ name ≠ "AbortError")) ∧
    (∀ i, i + 1 < (fetchWithRetry net cfg).delays.length →
      (fetchWithRetry net cfg).delays.getD (i + 1) 0
        = 2 * (fetchWithRetry net cfg).delays.getD i 0) := by
  refine ⟨?_, ?_, ?_, ?_, ?_⟩
  · exact fetchWithRetryAux_attempts_le net _ _ _ 0 none
  · intro r hnet hr
    simp [fetchWithRetry, fetchWithRetryAux, hnet, hr]
  · intro msg hnet
    simp [fetchWithRetry, fetchWithRetryAux, hnet]
  · intro hgt
    cases hnet : net 0 with
    | resp r =>
      by_cases hr :
          (r.ok || (decide (400 ≤ r.status) && decide (r.status < 500)))
            = true
      · exfalso
        have : fetchWithRetry net cfg
            = { result := .ok r, attempts := 1, delays := [] } := by
          simp [fetchWithRetry, fetchWithRetryAux, hnet, hr]
        simp [this] at hgt
      · left
        refine ⟨r, rfl, ?_, ?_⟩ <;>
          simp only [Bool.or_eq_true, Bool.and_eq_true,
            decide_eq_true_eq, not_or, not_and, not_lt] at hr
        · exact Bool.eq_false_iff.mpr (fun hh => hr.1 hh)
        · omega
    | thrown name msg =>
      by_cases hr : (name == "AbortError") = true
      · exfalso
        have hname : name = "AbortError" := by simpa using hr
        subst hname
        have : fetchWithRetry net cfg
            = { result := .error (.apiException 408 "Request timeout")
              , attempts := 1, delays := [] } := by
          simp [fetchWithRetry, fetchWithRetryAux, hnet]
        simp [this] at hgt
      · right
        exact ⟨name, msg, rfl, by simpa using hr⟩
  · intro i hi
    obtain ⟨k, hk⟩ := fetchWithRetryAux_delays_geometric net
      (cfg.retries.getD DEFAULT_RETRIES)
      (cfg.retryDelay.getD DEFAULT_RETRY_DELAY)
      (cfg.retries.getD DEFAULT_RETRIES + 1) 0 none (by omega)
    have hk' : (fetchWithRetry net cfg).delays
        = (List.range k).map
            (fun j => cfg.retryDelay.getD DEFAULT_RETRY_DELAY * 2 ^ j) := by
      simpa [fetchWithRetry] using hk
    rw [hk'] at hi ⊢
    simp only [List.length_map, List.length_range] at hi
    rw [List.getD_eq_getElem?_getD, List.getD_eq_getElem?_getD]
    rw [List.getElem?_map, List.getElem?_map]
    rw [List.getElem?_range (by omega : i + 1 < k),
      List.getElem?_range (by omega : i < k)]
    simp [pow_succ]
    ring

/-- The network behavior returning HTTP 500 on every attempt. -/
def alwaysHTTP500 : Nat → FetchOutcome := fun _ => .resp ⟨500, none⟩

/-- C2 counterexample: against a server failing persistently with HTTP
500 and the default configuration, the retrying client performs 4 fetch
attempts (1 initial + 3 retries), exceeding the cap of 3 total attempts
stated by the claim; the three backoff delays are 1000, 2000, 4000 ms. -/
theorem fetchWithRetry_four_attempts :
    (fetchWithRetry alwaysHTTP500 {}).attempts = 4 ∧
    ¬ (fetchWithRetry alwaysHTTP500 {}).attempts ≤ 3 ∧
    (fetchWithRetry alwaysHTTP500 {}).delays = [1000, 2000, 4000] := by
  refine ⟨?_, ?_, ?_⟩ <;> decide

/-- The network behavior returning an ok response whose body is not valid
JSON, on every url and attempt. -/
def okNoJson : String → Nat → FetchOutcome := fun _ _ => .resp ⟨200, none⟩

/-- C8 counterexample: a final response that is ok but whose body fails to
parse as JSON makes api.get reject with ApiException 500, so api.get does
not resolve for every ok final response. -/
theorem apiGet_rejects_ok_unparseable_body :
    Response.ok ⟨200, none⟩ = true ∧
    apiGet okNoJson "/status" {}
      = .error (.apiException 500 "Failed to parse response JSON") := by
  exact ⟨by decide, rfl⟩

/-- C8 (amended): api.get resolves with the parsed JSON body exactly when
the final response of the retry loop is ok and its body parses as JSON; an
ok final response with an unparseable body rejects with ApiException 500;
a non-ok final response rejects with an ApiException carrying its status
and the message or error field of the parsed error body (else the message
"API error: <status>"); and a request timeout rejects with ApiException
408 after a single attempt, without retry. -/
theorem apiGet_spec (net : String → Nat → FetchOutcome)
    (endpoint : String) (cfg : RequestConfig) :
    (∀ r body,
      (fetchWithRetry (net (requestUrl endpoint)) cfg).result = .ok r →
      r.ok = true → r.body = some body →
      apiGet net endpoint cfg = .ok body) ∧
    (∀ r,
      (fetchWithRetry (net (requestUrl endpoint)) cfg).result = .ok r →
      r.ok = true → r.body = none →
      apiGet net endpoint cfg
        = .error (.apiException 500 "Failed to parse response JSON")) ∧
    (∀ r errorData,
      (fetchWithRetry (net (requestUrl endpoint)) cfg).result = .ok r →
      r.ok = false → r.body = some errorData →
      apiGet net endpoint cfg
        = .error (.apiException r.status
            (if errorData.message ≠ "" then errorData.message
             else if errorData.error ≠ "" then errorData.error
             else "API error: " ++ toString r.status))) ∧
    (∀ r,
      (fetchWithRetry (net (requestUrl endpoint)) cfg).result = .ok r →
      r.ok = false → r.body = none →
      apiGet net endpoint cfg
        = .error (.apiException r.status
            ("API error: " ++ toString r.status))) ∧
    (∀ msg, net (requestUrl endpoint) 0 = .thrown "AbortError" msg →
      apiGet net endpoint cfg
          = .error (.apiException 408 "Request timeout") ∧
      (fetchWithRetry (net (requestUrl endpoint)) cfg).attempts = 1) ∧
    (∀ body, apiGet net endpoint cfg = .ok body →
      ∃ r, (fetchWithRetry (net (requestUrl endpoint)) cfg).result = .ok r
        ∧ r.ok = true ∧ r.body = some body) := by
  refine ⟨?_, ?_, ?_, ?_, ?_, ?_⟩
  · intro r body hres hok hbody
    simp [apiGet, hres, handleResponse, hok, hbody]
  · intro r hres hok hbody
    simp [apiGet, hres, handleResponse, hok, hbody]
  · intro r errorData hres hok hbody
    simp [apiGet, hres, handleResponse, hok, hbody]
  · intro r hres hok hbody
    simp [apiGet, hres, handleResponse, hok, hbody]
  · intro msg hnet
    constructor
    · simp [apiGet, fetchWithRetry, fetchWithRetryAux, hnet]
    · simp [fetchWithRetry, fetchWithRetryAux, hnet]
  · intro body hget
    unfold apiGet at hget
    cases hres : (fetchWithRetry (net (requestUrl endpoint)) cfg).result with
    | error e =>
      rw [hres] at hget
      have hget2 : (Except.error e : Except Thrown JsonBody)
          = .ok body := hget
      simp at hget2
    | ok r =>
      rw [hres] at hget
      have hget2 : handleResponse r = Except.ok body := hget
      refine ⟨r, rfl, ?_⟩
      unfold handleResponse at hget2
      by_cases hok : r.ok = true
      · cases hbody : r.body with
        | none =>
          rw [if_pos hok, hbody] at hget2
          exact absurd hget2 (by simp)
        | some data =>
          rw [if_pos hok, hbody] at hget2
          have : data = body := by simpa using hget2
          exact ⟨hok, by rw [this]⟩
      · exfalso
        rw [if_neg hok] at hget2
        cases hbody : r.body with
        | none => rw [hbody] at hget2; simp at hget2
        | some errorData => rw [hbody] at hget2; simp at hget2

/-- Folding one more fetched entry into the reconciler drops the previous
entries with its key and appends it. -/
theorem reconcile_append_singleton (xs : List RawEvent) (e : RawEvent) :
    reconcile (xs ++ [e])
      = (reconcile xs).filter (fun x => dedupKey x ≠ dedupKey e) ++ [e] := by
  simp [reconcile, List.foldl_append]

/-- C7: reconciliation deduplicates a fetched event list by the key
(calendar id, event id) with last-wins semantics: for every key, the
reconciled result restricted to that key is exactly the last fetched entry
carrying that key (so one event when the key occurs, none otherwise); in
particular two fetched entries with the same key reconcile to the later
entry alone, with all of its fields. -/
theorem reconcile_dedups_last_wins (fetched : List RawEvent)
    (k : String × String) :
    ((reconcile fetched).filter (fun e => dedupKey e == k)
      = ((fetched.filter (fun e => dedupKey e == k)).getLast?).toList) ∧
    (∀ a b : RawEvent, dedupKey a = dedupKey b → reconcile [a, b] = [b]) := by
  constructor
  · induction fetched using List.reverseRecOn with
    | nil => simp [reconcile]
    | append_singleton xs e ih =>
      rw [reconcile_append_singleton, List.filter_append, List.filter_append]
      by_cases hk : dedupKey e = k
      · have h1 : ((reconcile xs).filter
            (fun x => decide (dedupKey x ≠ dedupKey e))).filter
            (fun e => dedupKey e == k) = [] := by
          rw [List.filter_filter]
          rw [List.filter_eq_nil_iff]
          intro a _
          subst hk
          simp
        have h2 : List.filter (fun x => dedupKey x == k) [e] = [e] := by
          simp [hk]
        rw [h1, h2, List.nil_append, List.getLast?_concat]
        rfl
      · have h2 : List.filter (fun x => dedupKey x == k) [e] = [] := by
          simp [hk]
        have h1 : ((reconcile xs).filter
            (fun x => decide (dedupKey x ≠ dedupKey e))).filter
            (fun e => dedupKey e == k)
            = (reconcile xs).filter (fun e => dedupKey e == k) := by
          rw [List.filter_filter]
          apply List.filter_congr
          intro a _
          by_cases h : dedupKey a = k
          · have hne : ¬ k = dedupKey e := fun hh => hk hh.symm
            simp [h, hne]
          · simp [h]
        rw [h1, h2, List.append_nil, List.append_nil]
        exact ih
  · intro a b hab
    simp [reconcile, hab]

/-- C5: the cache window, used by the witness below. -/
def c5Window : Window := ⟨0, 100⟩

/-- A stale event of account a1 inside the window. -/
def c5OldIn : EventRow := ⟨"a1", "c1", "stale", "Old", 10, 20, false⟩

/-- An event of account a1 outside the window. -/
def c5OldOut : EventRow := ⟨"a1", "c1", "later", "Future", 200, 210, false⟩

/-- An event of another account inside the window. -/
def c5OtherAcct : EventRow := ⟨"a2", "c9", "x", "Other", 10, 20, false⟩

/-- The freshly synced event of account a1. -/
def c5New : EventRow := ⟨"a1", "c1", "fresh", "New", 30, 40, false⟩

/-- A cache holding the three pre-existing rows. -/
def c5Cache : Cache := ⟨[], [c5OldIn, c5OldOut, c5OtherAcct]⟩

/-- C5: after a completed replaceAccountWindow(accountId, calendars,
events, window) call whose committed events belong to the account and
overlap the window (the adapter contract), queryEvents restricted to that
account and window returns exactly the newly committed set, events of the
account outside the window are unchanged, and events of other accounts
are unchanged. -/
theorem replaceAccountWindow_exact (cache : Cache) (accountId : String)
    (cals : List CalendarRow) (evs : List EventRow) (w : Window)
    (hacct : ∀ e ∈ evs, e.account_id = accountId)
    (hwin : ∀ e ∈ evs, inWindow w e.startTime e.endTime = true) :
    (∀ e, e ∈ queryEvents (replaceAccountWindow cache accountId cals evs w)
        w (some accountId) ↔ e ∈ evs) ∧
    (∀ e, e.account_id = accountId →
      inWindow w e.startTime e.endTime = false →
      (e ∈ (replaceAccountWindow cache accountId cals evs w).events
        ↔ e ∈ cache.events)) ∧
    (∀ e, e.account_id ≠ accountId →
      (e ∈ (replaceAccountWindow cache accountId cals evs w).events
        ↔ e ∈ cache.events)) := by
  refine ⟨?_, ?_, ?_⟩
  · intro e
    rw [queryEvents, (List.perm_insertionSort _ _).mem_iff]
    simp only [List.mem_filter, List.mem_append, replaceAccountWindow]
    constructor
    · rintro ⟨⟨⟨_, hp⟩ | hmem, hov⟩, hacc⟩
      · exfalso
        have heq : e.account_id = accountId := by simpa using hacc
        simp [heq, hov] at hp
      · exact hmem
    · intro he
      refine ⟨⟨Or.inr he, hwin e he⟩, ?_⟩
      simp [hacct e he]
  · intro e heq hov
    simp only [replaceAccountWindow, List.mem_append, List.mem_filter]
    constructor
    · rintro (⟨hmem, _⟩ | hmem)
      · exact hmem
      · exact absurd (hwin e hmem) (by simp [hov])
    · intro hmem
      exact Or.inl ⟨hmem, by simp [heq, hov]⟩
  · intro e hne
    simp only [replaceAccountWindow, List.mem_append, List.mem_filter]
    constructor
    · rintro (⟨hmem, _⟩ | hmem)
      · exact hmem
      · exact absurd (hacct e hmem) hne
    · intro hmem
      refine Or.inl ⟨hmem, ?_⟩
      simp [hne]

/-- C5 witness: a concrete cache with a stale in-window row, an
out-of-window row and a row of another account, refreshed with one new
event. -/
theorem replaceAccountWindow_exact_witness :
    (∀ e ∈ [c5New], e.account_id = "a1") ∧
    (∀ e ∈ [c5New], inWindow c5Window e.startTime e.endTime = true) ∧
    ((∀ e, e ∈ queryEvents
        (replaceAccountWindow c5Cache "a1" [] [c5New] c5Window)
        c5Window (some "a1") ↔ e ∈ [c5New]) ∧
     (∀ e, e.account_id = "a1" →
       inWindow c5Window e.startTime e.endTime = false →
       (e ∈ (replaceAccountWindow c5Cache "a1" [] [c5New] c5Window).events
         ↔ e ∈ c5Cache.events)) ∧
     (∀ e, e.account_id ≠ "a1" →
       (e ∈ (replaceAccountWindow c5Cache "a1" [] [c5New] c5Window).events
         ↔ e ∈ c5Cache.events))) :=
  ⟨by decide, by decide,
    replaceAccountWindow_exact c5Cache "a1" [] [c5New] c5Window
      (by decide) (by decide)⟩

/-- C6: the snapshot consumed by the dashboard carries a boolean
currently-syncing flag, a nullable last-full-sync timestamp rendered as
Never when null, total event and calendar counts, an errors list, cache
totals, per-account event and calendar count maps, and a date range whose
bounds may each be null (the range is rendered only when both bounds are
present). -/
theorem statusSnapshot_shape (fmt : String → String) (st : SyncStatus)
    (cs : CacheStats) :
    (SyncStatus.mk st.currently_syncing st.last_full_sync st.total_events
        st.total_calendars st.errors st.sources = st) ∧
    (CacheStats.mk cs.total_events cs.total_calendars cs.events_by_account
        cs.calendars_by_account cs.date_range = cs) ∧
    ((dashboardView fmt st cs).statusLabel = "Currently syncing..."
      ↔ st.currently_syncing = true) ∧
    (st.last_full_sync = none →
      (dashboardView fmt st cs).lastSyncText = "Never") ∧
    ((dashboardView fmt st cs).eventsCount = st.total_events) ∧
    ((dashboardView fmt st cs).calendarsCount = st.total_calendars) ∧
    ((dashboardView fmt st cs).cachedEvents = cs.total_events) ∧
    ((dashboardView fmt st cs).cachedCalendars = cs.total_calendars) ∧
    (st.errors = [] → (dashboardView fmt st cs).errorsShown = none) ∧
    (∀ n, (dashboardView fmt st cs).errorsShown = some n
      → n = st.errors.length) ∧
    (cs.date_range.earliest = none ∨ cs.date_range.latest = none →
      (dashboardView fmt st cs).dateRangeText = none) := by
  refine ⟨rfl, rfl, ?_, ?_, rfl, rfl, rfl, rfl, ?_, ?_, ?_⟩
  · cases hs : st.currently_syncing <;>
      simp only [dashboardView, hs] <;> decide
  · intro h
    simp [dashboardView, h]
  · intro h
    simp [dashboardView, h]
  · intro n hn
    rw [dashboardView] at hn
    dsimp only at hn
    by_cases h : 0 < st.errors.length
    · rw [if_pos h] at hn
      exact (Option.some.inj hn).symm
    · rw [if_neg h] at hn
      exact absurd hn (by simp)
  · intro h
    rcases h with h | h
    · simp [dashboardView, h]
    · cases hE : cs.date_range.earliest <;>
        simp [dashboardView, h, hE]

/-- C10: deleteAccount resolves with a boolean and never rethrows: it is
true exactly when the post to /accounts/<accountId>/remove resolves, and
false exactly when that post throws (any HTTP error or failure). -/
theorem deleteAccount_total (accountId : String)
    (net : String → Nat → FetchOutcome) :
    (deleteAccount accountId net = true ∨
      deleteAccount accountId net = false) ∧
    (deleteAccount accountId net = true ↔
      ∃ body, apiPost net (deleteAccountEndpoint accountId) {} = .ok body) ∧
    (deleteAccount accountId net = false ↔
      ∃ err, apiPost net (deleteAccountEndpoint accountId) {} = .error err) := by
  refine ⟨?_, ?_, ?_⟩ <;>
    cases h : apiPost net (deleteAccountEndpoint accountId) {} <;>
      simp [deleteAccount, h]

end DigitalCalendar
